import Mathlib

/-!
Shallow embedding of the asdb-jobs background job runner, covering the
error taxonomy (asdb_jobs/errors.py), the BLAST result parsing and
enrichment (asdb_jobs/blast.py), the job handler and dispatcher logic
(asdb_jobs/core.py), the database job model (asdb_jobs/models/job.py),
and the runtime configuration (asdb_jobs/config.py).

Python strings become Lean String, Python ints become Int, Python float
arithmetic in the identity computation is modelled exactly over Rat,
Python exceptions become an explicit error type threaded through Except,
and the Postgres jobs table becomes a list of rows transformed purely.
-/

namespace AsdbJobs

/-! ## asdb_jobs/errors.py -/

/-- Python exception values relevant to the runner.  The constructors
invalidControlName, invalidJobData, invalidJobId, invalidJobType and
jobConflict model the classes of asdb_jobs/errors.py, all of which derive
from ASDBJobsError (itself a ValueError subclass).  valueError, keyError
and zeroDivisionError model plain builtin exceptions, which are NOT
instances of ASDBJobsError.  Each carries the message text that
str(err) would produce. -/
inductive PyExc where
  | valueError (msg : String)
  | keyError (msg : String)
  | zeroDivisionError (msg : String)
  | invalidControlName (msg : String)
  | invalidJobData (msg : String)
  | invalidJobId (msg : String)
  | invalidJobType (msg : String)
  | jobConflict (msg : String)
deriving DecidableEq, Repr

instance {ε α : Type} [DecidableEq ε] [DecidableEq α] : DecidableEq (Except ε α) :=
  fun x y =>
    match x, y with
    | .ok a, .ok b =>
        if h : a = b then .isTrue (by rw [h])
        else .isFalse (fun hc => h (by cases hc; rfl))
    | .ok _, .error _ => .isFalse (fun hc => by cases hc)
    | .error _, .ok _ => .isFalse (fun hc => by cases hc)
    | .error a, .error b =>
        if h : a = b then .isTrue (by rw [h])
        else .isFalse (fun hc => h (by cases hc; rfl))

/-- Whether an exception is an instance of ASDBJobsError, i.e. would be
caught by the "except ASDBJobsError" clause in dispatch (core.py line 61).
Plain ValueError, KeyError and ZeroDivisionError are not, since
ASDBJobsError is a strict subclass of ValueError. -/
def PyExc.isASDBJobsError : PyExc → Bool
  | .valueError _ => false
  | .keyError _ => false
  | .zeroDivisionError _ => false
  | .invalidControlName _ => true
  | .invalidJobData _ => true
  | .invalidJobId _ => true
  | .invalidJobType _ => true
  | .jobConflict _ => true

/-- The message text str(err) of an exception. -/
def PyExc.text : PyExc → String
  | .valueError m => m
  | .keyError m => m
  | .zeroDivisionError m => m
  | .invalidControlName m => m
  | .invalidJobData m => m
  | .invalidJobId m => m
  | .invalidJobType m => m
  | .jobConflict m => m

/-! ## String helpers modelling Python str methods -/

/-- Characters stripped by Python str.strip(): space, tab, newline,
carriage return, vertical tab, form feed. -/
def pyIsSpace (c : Char) : Bool :=
  c = ' ' || c = '\t' || c = '\n' || c = '\r' || c = Char.ofNat 11 || c = Char.ofNat 12

/-- Python str.strip(): remove leading and trailing whitespace. -/
def pyStrip (s : String) : String :=
  String.mk (((s.toList.dropWhile pyIsSpace).reverse.dropWhile pyIsSpace).reverse)

/-- Helper for pySplitOnChar, accumulating the current field in reverse. -/
def splitAux (sep : Char) : List Char → List Char → List String
  | [], acc => [String.mk acc.reverse]
  | c :: rest, acc =>
      if c = sep then String.mk acc.reverse :: splitAux sep rest []
      else splitAux sep rest (c :: acc)

/-- Python str.split(sep) for a one-character separator: every occurrence
of the separator starts a new field, and an empty input yields one empty
field.  Always returns a nonempty list. -/
def pySplitOnChar (sep : Char) (s : String) : List String :=
  splitAux sep s.toList []

/-- Decimal digit sequence value; none when empty or a non-digit occurs.
Used to model Python int(). -/
def digitsVal (cs : List Char) : Option Nat :=
  match cs with
  | [] => none
  | _ =>
      cs.foldl (fun acc c =>
        acc.bind (fun n => if c.isDigit then some (n * 10 + (c.toNat - 48)) else none))
        (some 0)

/-- Python int(str): surrounding whitespace allowed, optional sign, at
least one decimal digit; anything else raises ValueError. -/
def pyInt (s : String) : Except PyExc Int :=
  let cs := (pyStrip s).toList
  match cs with
  | '-' :: rest =>
      match digitsVal rest with
      | some n => .ok (-(n : Int))
      | none => .error (.valueError ("invalid literal for int with base 10: " ++ s))
  | '+' :: rest =>
      match digitsVal rest with
      | some n => .ok (n : Int)
      | none => .error (.valueError ("invalid literal for int with base 10: " ++ s))
  | _ =>
      match digitsVal cs with
      | some n => .ok (n : Int)
      | none => .error (.valueError ("invalid literal for int with base 10: " ++ s))

/-- Python round() to the nearest integer, ties to even, stated over the
rationals: this is the specification-side formula used to express the
identity computation. -/
def pythonRound (q : ℚ) : ℤ :=
  if q - (⌊q⌋ : ℚ) < 1 / 2 then ⌊q⌋
  else if 1 / 2 < q - (⌊q⌋ : ℚ) then ⌊q⌋ + 1
  else if ⌊q⌋ % 2 = 0 then ⌊q⌋ else ⌊q⌋ + 1

/-- Round num / den half to even for a positive denominator, in integer
arithmetic (Int division here is Euclidean, so the remainder is the
fractional part scaled by den). -/
def roundHalfEvenPos (num den : ℤ) : ℤ :=
  if 2 * (num % den) < den then num / den
  else if den < 2 * (num % den) then num / den + 1
  else if (num / den) % 2 = 0 then num / den else num / den + 1

/-- Round num / den half to even for any nonzero denominator. -/
def roundHalfEven (num den : ℤ) : ℤ :=
  if den < 0 then roundHalfEvenPos (-num) (-den) else roundHalfEvenPos num den

/-! ## asdb_jobs/blast.py -/

/-- The BlastResult dataclass.  The identity column is declared float in
the source but always holds the integer produced by round(), so it is
modelled as Int. -/
structure BlastResult where
  q_acc : String
  s_acc : String
  identity : Int
  q_seq : String
  q_start : Int
  q_end : Int
  q_len : Int
  s_seq : String
  s_start : Int
  s_end : Int
  s_len : Int
deriving DecidableEq, Repr

/-- len(fields(BlastResult)): the dataclass has eleven fields. -/
def blastFieldCount : Nat := 11

/-- BlastResult.from_line: strip the line, split on tabs, require exactly
eleven columns, parse the integer columns in source order, and compute
identity as round((nident / q_len) * 100); q_len = 0 raises
ZeroDivisionError before the later columns are read.  The float
expression of the source is modelled as its exact rational value
(nident * 100) / q_len, rounded half to even like Python round(); the
lemma roundHalfEven_eq_pythonRound below connects the integer-level
computation used here to that rational formula. -/
def BlastResult.from_line (line : String) : Except PyExc BlastResult := do
  let parts := pySplitOnChar '\t' (pyStrip line)
  if parts.length ≠ blastFieldCount then
    throw (.valueError ("Unexpected line " ++ toString parts))
  else
    let q_acc := parts.getD 0 ""
    let s_acc := parts.getD 1 ""
    let nident ← pyInt (parts.getD 2 "")
    let q_seq := parts.getD 3 ""
    let q_start ← pyInt (parts.getD 4 "")
    let q_end ← pyInt (parts.getD 5 "")
    let q_len ← pyInt (parts.getD 6 "")
    if q_len = 0 then
      throw (.zeroDivisionError "division by zero")
    else
      let identity := roundHalfEven (nident * 100) q_len
      let s_seq := parts.getD 7 ""
      let s_start ← pyInt (parts.getD 8 "")
      let s_end ← pyInt (parts.getD 9 "")
      let s_len ← pyInt (parts.getD 10 "")
      return { q_acc, s_acc, identity, q_seq, q_start, q_end, q_len,
               s_seq, s_start, s_end, s_len }

/-- parse_blast: parse each line in order, appending the records; the
first raised exception aborts the loop. -/
def parse_blast : List String → Except PyExc (List BlastResult)
  | [] => .ok []
  | line :: rest => do
      let r ← BlastResult.from_line line
      let rs ← parse_blast rest
      return r :: rs

/-- One value of the static comparippson metadata entries mapping.  The
start and end members keep their JSON shape opaque, modelled as String. -/
structure MetadataEntry where
  locus : String
  type : String
  accession : String
  start : String
  stop : String
deriving DecidableEq, Repr

/-- The entries mapping of the metadata JSON, as an association list. -/
abbrev Metadata := List (String × MetadataEntry)

/-- Python dict subscription metadata entries lookup: a missing key
raises KeyError. -/
def lookupEntry (md : Metadata) (key : String) : Except PyExc MetadataEntry :=
  match md.find? (fun p => p.1 == key) with
  | some p => .ok p.2
  | none => .error (.keyError key)

/-- The ComparippsonResult dataclass. -/
structure ComparippsonResult where
  q_acc : String
  s_locus : String
  s_type : String
  s_acc : String
  s_rec_start : String
  s_rec_end : String
  identity : Int
  q_seq : String
  q_start : Int
  q_end : Int
  q_len : Int
  s_seq : String
  s_start : Int
  s_end : Int
  s_len : Int
deriving DecidableEq, Repr

/-- ComparippsonResult.from_blast: derive the entry id as the part of
s_acc before the first vertical bar, look it up in the metadata entries
(KeyError when absent), and copy the remaining columns from the blast
record. -/
def ComparippsonResult.from_blast (blast : BlastResult) (md : Metadata) :
    Except PyExc ComparippsonResult := do
  let entry_id := (pySplitOnChar '|' blast.s_acc).headD ""
  let data ← lookupEntry md entry_id
  return { q_acc := blast.q_acc,
           s_locus := data.locus,
           s_type := data.type,
           s_acc := data.accession,
           s_rec_start := data.start,
           s_rec_end := data.stop,
           identity := blast.identity,
           q_seq := blast.q_seq,
           q_start := blast.q_start,
           q_end := blast.q_end,
           q_len := blast.q_len,
           s_seq := blast.s_seq,
           s_start := blast.s_start,
           s_end := blast.s_end,
           s_len := blast.s_len }

/-- Modelled from the spec: the class ClusterBlastResult is imported by
core.py from asdb_jobs.blast, but its definition is missing from
src/asdb_jobs/blast.py.  Per the spec it is the BlastResult projected to
JSON with the derived identity, so it carries exactly the BlastResult
columns. -/
structure ClusterBlastResult where
  q_acc : String
  s_acc : String
  identity : Int
  q_seq : String
  q_start : Int
  q_end : Int
  q_len : Int
  s_seq : String
  s_start : Int
  s_end : Int
  s_len : Int
deriving DecidableEq, Repr

/-- Modelled from the spec: ClusterBlastResult.from_blast copies every
BlastResult column, identity included. -/
def ClusterBlastResult.from_blast (blast : BlastResult) : ClusterBlastResult :=
  { q_acc := blast.q_acc,
    s_acc := blast.s_acc,
    identity := blast.identity,
    q_seq := blast.q_seq,
    q_start := blast.q_start,
    q_end := blast.q_end,
    q_len := blast.q_len,
    s_seq := blast.s_seq,
    s_start := blast.s_start,
    s_end := blast.s_end,
    s_len := blast.s_len }

/-! ## asdb_jobs/core.py -/

/-- The JobOutcome enum of core.py. -/
inductive JobOutcome where
  | SUCCESS
  | FAILURE
  | TIMEOUT
  | INTERNAL_ERROR
deriving DecidableEq, Repr

/-- The value placed into the completion future of a job.  run_process
sets a three element tuple, while cancel sets a four element tuple; the
constructor records the arity, because tuple unpacking in the handlers
depends on it. -/
inductive EventValue where
  | proc3 (res : JobOutcome) (stdout stderr : List String)
  | cancel4 (res : JobOutcome) (stdout stderr extra : List String)
deriving DecidableEq, Repr

/-- The statement "res, stdout, stderr = await event" of the handlers:
unpacking a three element tuple succeeds, unpacking the four element
tuple set by cancel raises ValueError. -/
def unpackEvent : EventValue → Except PyExc (JobOutcome × List String × List String)
  | .proc3 res stdout stderr => .ok (res, stdout, stderr)
  | .cancel4 _ _ _ _ => .error (.valueError "too many values to unpack (expected 3)")

/-- run_process: after the child exits, set FAILURE with the captured
streams when the return code is nonzero, SUCCESS otherwise. -/
def run_process (returncode : Int) (stdout stderr : List String) : EventValue :=
  if returncode ≠ 0 then .proc3 .FAILURE stdout stderr
  else .proc3 .SUCCESS stdout stderr

/-- The command line of the kill-by-name path. -/
def killCommand (containerName : String) : List String :=
  ["podman", "kill", containerName]

/-- cancel: kill the container by name, then evaluate
del app[containers][container_name], then set the completion event to
the four element tuple (TIMEOUT, [], [Runtime exceeded], []).  The first
component of the result is the list of kill invocations performed; the
second is the value the event is set to, or none when the del statement
raises KeyError first, in which case the event is never set.  The app
mapping holds no containers entry unless one was stored, modelled by an
optional association: none models a missing containers key. -/
def cancel (containersDict : Option (List String)) (containerName : String) :
    List (List String) × Option EventValue :=
  ([killCommand containerName],
    match containersDict with
    | none => none
    | some names =>
        if containerName ∈ names then
          some (.cancel4 .TIMEOUT [] ["Runtime exceeded"] [])
        else none)

/-- No statement in the repository ever assigns app[containers], so the
containers key is absent at every point cancel can run. -/
def appContainers : Option (List String) := none

/-- Sort order used for comparippson hits:
results.sort(key=lambda e: e[identity], reverse=True).  The relation
puts a before b when the identity of b is at most the identity of a. -/
def identityGe (a b : ComparippsonResult) : Prop :=
  b.identity ≤ a.identity

instance : DecidableRel identityGe :=
  fun a b => inferInstanceAs (Decidable (b.identity ≤ a.identity))

/-- Python list.sort with a key and reverse=True is a stable sort under
the total preorder identityGe; stable sorting under a total preorder has
a unique result, and insertion sort (inserting earlier elements in front
of equal ones) realises it. -/
def sortHitsDesc (hits : List ComparippsonResult) : List ComparippsonResult :=
  hits.insertionSort identityGe

instance : IsTotal ComparippsonResult identityGe :=
  ⟨fun a b => le_total b.identity a.identity⟩

instance : IsTrans ComparippsonResult identityGe :=
  ⟨fun _ _ _ hab hbc => le_trans hbc hab⟩

/-- The value bound to the error key of a failed results payload: the
timeout and dispatcher paths store a string, the FAILURE path stores the
captured stderr line list. -/
inductive ErrText where
  | fromStr (s : String)
  | fromList (lines : List String)
deriving DecidableEq, Repr

/-- The results column value committed on a job: absent, the failed
payload with status failed and an error value, or the hits payload of a
successful run of either handler. -/
inductive JobResultsVal where
  | emptyRes
  | failedRes (error : ErrText)
  | compHits (hits : List ComparippsonResult)
  | cbHits (hits : List ClusterBlastResult)
deriving DecidableEq, Repr

/-- One commit performed on a job: the status column and the results
column written. -/
abbrev Commit := String × JobResultsVal

/-- The enrichment loop of handle_comparippson: each parsed record is
converted through ComparippsonResult.from_blast and appended; a raised
KeyError aborts the loop. -/
def enrichAll (md : Metadata) : List BlastResult → Except PyExc (List ComparippsonResult)
  | [] => .ok []
  | b :: rest => do
      let c ← ComparippsonResult.from_blast b md
      let cs ← enrichAll md rest
      return c :: cs

/-- The part of handle_comparippson after the completion event fires:
unpack the event tuple, commit failed with the literal timeout message on
TIMEOUT, commit failed with the captured stderr on FAILURE, otherwise
parse the stdout lines, enrich each with metadata, sort by identity
descending and commit done with the hits.  Returns the list of commits
performed; a raised exception performs none. -/
def handleComparippsonAfterEvent (md : Metadata) (ev : EventValue) :
    Except PyExc (List Commit) := do
  let (res, stdout, stderr) ← unpackEvent ev
  if res = JobOutcome.TIMEOUT then
    return [("failed", .failedRes (.fromStr "timeout exceeded"))]
  else if res = JobOutcome.FAILURE then
    return [("failed", .failedRes (.fromList stderr))]
  else
    let rs ← parse_blast stdout
    let enriched ← enrichAll md rs
    return [("done", .compHits (sortHitsDesc enriched))]

/-- The part of handle_clusterblast after the completion event fires:
same shape as the comparippson handler, but the hits are the parsed
lines projected through ClusterBlastResult without sorting. -/
def handleClusterblastAfterEvent (ev : EventValue) : Except PyExc (List Commit) := do
  let (res, stdout, stderr) ← unpackEvent ev
  if res = JobOutcome.TIMEOUT then
    return [("failed", .failedRes (.fromStr "timeout exceeded"))]
  else if res = JobOutcome.FAILURE then
    return [("failed", .failedRes (.fromList stderr))]
  else
    let rs ← parse_blast stdout
    return [("done", .cbHits (rs.map ClusterBlastResult.from_blast))]

/-- The in-memory Job dataclass of models/job.py, with the engine field
dropped (it only carries the connection). -/
structure Job where
  id : String
  jobtype : String
  status : String
  runner : String
  data : List (String × String)
  results : JobResultsVal
  version : Int
deriving DecidableEq, Repr

/-- handle_job: dispatch on the jobtype, raising InvalidJobType for an
unknown one.  The sandbox interaction is abstracted by the event value
the completion future resolves to. -/
def handle_job (md : Metadata) (job : Job) (ev : EventValue) :
    Except PyExc (List Commit) :=
  if job.jobtype = "comparippson" then handleComparippsonAfterEvent md ev
  else if job.jobtype = "clusterblast" then handleClusterblastAfterEvent ev
  else .error (.invalidJobType job.jobtype)

/-- One pass of the dispatch loop body around handle_job: the
"except ASDBJobsError" clause catches exactly the ASDBJobsError family
and converts it into a failed commit carrying str(err); any other
exception propagates and aborts the dispatcher.  First component: the
commits performed on the job; second: the propagating exception, if
any. -/
def dispatchStep (md : Metadata) (job : Job) (ev : EventValue) :
    List Commit × Option PyExc :=
  match handle_job md job ev with
  | .ok commits => (commits, none)
  | .error e =>
      if e.isASDBJobsError then
        ([("failed", .failedRes (.fromStr e.text))], none)
      else ([], some e)

/-- The complete timeout path of a handler: the timer fires, cancel runs
(kill by name, del of the containers entry, set event), and the handler
resumes only if the event was set.  Second component: none when the
handler stays blocked on the event forever, otherwise the outcome of the
handler code after the await. -/
def runTimeoutScenario (handler : EventValue → Except PyExc (List Commit))
    (containersDict : Option (List String)) (jobId : String) :
    List (List String) × Option (Except PyExc (List Commit)) :=
  let killsAndEvent := cancel containersDict jobId
  (killsAndEvent.1, killsAndEvent.2.map handler)

/-- One supervisory tick of manage (core.py lines 232-243): re-fetch the
control row, zero max_jobs when stop is scheduled, and start one
dispatcher task when want_more_jobs holds.  Returns the new max_jobs and
the number of dispatchers spawned this tick. -/
def manageTick (stopScheduled : Bool) (runningJobs maxJobs : Int) : Int × Nat :=
  let maxJobs2 := if stopScheduled then 0 else maxJobs
  (maxJobs2, if runningJobs < maxJobs2 then 1 else 0)

/-- RunConfig.up: increment the running jobs counter. -/
def runningJobsUp (n : Int) : Int := n + 1

/-- RunConfig.down: decrement the running jobs counter. -/
def runningJobsDown (n : Int) : Int := n - 1

/-- What the environment presents to one iteration of the dispatch
loop: either the re-read config makes want_less_jobs true, or the
iteration passes quietly (no job, or a job handled and committed), or
handle_job raises an exception. -/
inductive DispatchEvent where
  | wantLess
  | quiet
  | handlerRaised (e : PyExc)
deriving DecidableEq, Repr

/-- How a dispatch task left its loop. -/
inductive DispatchExit where
  | shrink
  | aborted (e : PyExc)
  | running
deriving DecidableEq, Repr

/-- The while loop of dispatch, tracking the running jobs counter: on
want_less_jobs it calls config.down() and breaks; a raised exception
that is not an ASDBJobsError propagates out of the loop WITHOUT any
counter decrement (dispatch has no finally clause); an ASDBJobsError is
caught and the loop continues.  The running constructor stands for a
loop still going when the modelled event list ends. -/
def dispatchLoop (counter : Int) : List DispatchEvent → Int × DispatchExit
  | [] => (counter, .running)
  | ev :: rest =>
      match ev with
      | .wantLess => (runningJobsDown counter, .shrink)
      | .quiet => dispatchLoop counter rest
      | .handlerRaised e =>
          if e.isASDBJobsError then dispatchLoop counter rest
          else (counter, .aborted e)

/-- dispatch: config.up() on entry, then the loop. -/
def dispatch (counter : Int) (events : List DispatchEvent) : Int × DispatchExit :=
  dispatchLoop (runningJobsUp counter) events

/-! ## asdb_jobs/models/job.py -/

/-- A row of the asdb_jobs.jobs table. -/
structure Row where
  id : String
  jobtype : String
  status : String
  runner : String
  submitted_date : Option String
  data : List (String × String)
  results : JobResultsVal
  version : Int
deriving DecidableEq, Repr

/-- The jobs table, as the ordered list of its rows. -/
abbrev DB := List Row

/-- get_job_by_id: select the first row whose id matches; an absent row
raises InvalidJobId. -/
def get_job_by_id (db : DB) (id : String) : Except PyExc Row :=
  match db.find? (fun r => r.id == id) with
  | some row => .ok row
  | none => .error (.invalidJobId ("Job(" ++ id ++ ") not found in database"))

/-- The Job value built from a fetched row (Job.from_db). -/
def rowToJob (r : Row) : Job :=
  { id := r.id, jobtype := r.jobtype, status := r.status, runner := r.runner,
    data := r.data, results := r.results, version := r.version }

/-- Job.from_db: load the row by primary key and build the Job. -/
def Job.from_db (db : DB) (id : String) : Except PyExc Job :=
  match get_job_by_id db id with
  | .ok row => .ok (rowToJob row)
  | .error e => .error e

/-- Job.commit: re-read the row by primary key.  When present and its
version differs from the in-memory one, raise JobConfict; on a match,
bump the local version and update status, runner, data, results and
version on the rows matching both the id and the previously fetched
version.  When the row is absent (InvalidJobId), insert it; the insert
branch stores the job id in the jobtype column, exactly as the source
does (models/job.py line 90). -/
def Job.commit (j : Job) (db : DB) : Except PyExc (Job × DB) :=
  match get_job_by_id db j.id with
  | .ok row =>
      if row.version ≠ j.version then
        .error (.jobConflict
          ("Job(" ++ j.id ++ ") changed in database"))
      else
        let j2 : Job := { j with version := j.version + 1 }
        .ok (j2, db.map (fun r =>
          if r.id = j.id ∧ r.version = row.version then
            { r with status := j2.status, runner := j2.runner,
                     data := j2.data, results := j2.results,
                     version := j2.version }
          else r))
  | .error (.invalidJobId _) =>
      .ok (j, db ++ [{ id := j.id, jobtype := j.id, status := j.status,
                       runner := j.runner, submitted_date := none,
                       data := j.data, results := j.results,
                       version := j.version }])
  | .error e => .error e

/-- The selection predicate of JobQueue.get_next: status pending, and
the row not locked by another transaction (FOR UPDATE SKIP LOCKED,
modelled by a set of row ids currently locked elsewhere). -/
def pendingUnlocked (locked : List String) (r : Row) : Bool :=
  r.status == "pending" && !(locked.contains r.id)

/-- The per-row effect of the update statement of JobQueue.get_next:
stamp the runner, set the status to running and bump the version, on the
rows matching both the selected id and the previously read version. -/
def claimRow (name : String) (row : Row) (r : Row) : Row :=
  if r.id = row.id ∧ r.version = row.version then
    { r with runner := name, status := "running", version := row.version + 1 }
  else r

/-- JobQueue.get_next: select at most one unlocked pending row; when
none exists return none with the table unchanged, otherwise set the row
to running with the runner name stamped and the version incremented by
one, gated on both the id and the previously read version, and return
the freshly re-read job. -/
def JobQueue.get_next (name : String) (locked : List String) (db : DB) :
    Except PyExc (Option Job × DB) :=
  match db.find? (pendingUnlocked locked) with
  | none => .ok (none, db)
  | some row =>
      match Job.from_db (db.map (claimRow name row)) row.id with
      | .ok job => .ok (some job, db.map (claimRow name row))
      | .error e => .error e

/-! ## asdb_jobs/config.py -/

/-- A Python value stored in a RunConfig attribute.  setattr performs no
coercion, so every field can hold any value. -/
inductive PyVal where
  | vInt (n : Int)
  | vStr (s : String)
  | vBool (b : Bool)
  | vNone
deriving DecidableEq, Repr

/-- The RunConfig dataclass: twelve public fields and the three
init=False internals.  Every field is a dynamically typed slot. -/
structure RunConfig where
  configfile : PyVal
  cpus : PyVal
  db_dir : PyVal
  debug : PyVal
  max_jobs : PyVal
  name : PyVal
  workdir : PyVal
  host : PyVal
  database : PyVal
  password : PyVal
  port : PyVal
  user : PyVal
  _config_file_hash : PyVal
  _db : PyVal
  _running_jobs : PyVal
deriving DecidableEq, Repr

/-- The names returned by fields(RunConfig), in declaration order.
dataclasses.fields includes init=False fields, so the three internal
names appear. -/
def runConfigFieldNames : List String :=
  ["configfile", "cpus", "db_dir", "debug", "max_jobs", "name", "workdir",
   "host", "database", "password", "port", "user",
   "_config_file_hash", "_db", "_running_jobs"]

/-- getattr by field name. -/
def RunConfig.getField (c : RunConfig) (n : String) : Option PyVal :=
  if n = "configfile" then some c.configfile
  else if n = "cpus" then some c.cpus
  else if n = "db_dir" then some c.db_dir
  else if n = "debug" then some c.debug
  else if n = "max_jobs" then some c.max_jobs
  else if n = "name" then some c.name
  else if n = "workdir" then some c.workdir
  else if n = "host" then some c.host
  else if n = "database" then some c.database
  else if n = "password" then some c.password
  else if n = "port" then some c.port
  else if n = "user" then some c.user
  else if n = "_config_file_hash" then some c._config_file_hash
  else if n = "_db" then some c._db
  else if n = "_running_jobs" then some c._running_jobs
  else none

/-- RunConfig.update_from_dict: for every name in fields(RunConfig) that
appears as a key, setattr the dict value; fields whose names are absent
keep their value.  The loop touches each field once, so it is the
simultaneous per-field update below. -/
def RunConfig.update_from_dict (c : RunConfig) (d : String → Option PyVal) : RunConfig :=
  { configfile := (d "configfile").getD c.configfile,
    cpus := (d "cpus").getD c.cpus,
    db_dir := (d "db_dir").getD c.db_dir,
    debug := (d "debug").getD c.debug,
    max_jobs := (d "max_jobs").getD c.max_jobs,
    name := (d "name").getD c.name,
    workdir := (d "workdir").getD c.workdir,
    host := (d "host").getD c.host,
    database := (d "database").getD c.database,
    password := (d "password").getD c.password,
    port := (d "port").getD c.port,
    user := (d "user").getD c.user,
    _config_file_hash := (d "_config_file_hash").getD c._config_file_hash,
    _db := (d "_db").getD c._db,
    _running_jobs := (d "_running_jobs").getD c._running_jobs }

/-! ## Helper lemmas -/

theorem except_bind_ok {ε α β : Type} (x : α) (f : α → Except ε β) :
    (Except.ok x : Except ε α) >>= f = f x := rfl

theorem except_bind_error {ε α β : Type} (e : ε) (f : α → Except ε β) :
    (Except.error e : Except ε α) >>= f = .error e := rfl

theorem dispatchLoop_counter (events : List DispatchEvent) : ∀ c : Int,
    ((dispatchLoop c events).2 = .shrink → (dispatchLoop c events).1 = c - 1)
    ∧ ((dispatchLoop c events).2 ≠ .shrink → (dispatchLoop c events).1 = c) := by
  induction events with
  | nil => intro c; exact ⟨fun h => (nomatch h), fun _ => rfl⟩
  | cons ev rest ih =>
      intro c
      cases ev with
      | wantLess =>
          refine ⟨fun _ => rfl, fun h => absurd rfl h⟩
      | quiet => exact ih c
      | handlerRaised e =>
          by_cases ha : e.isASDBJobsError
          · simpa [dispatchLoop, ha] using ih c
          · refine ⟨fun h => ?_, fun _ => by simp [dispatchLoop, ha]⟩
            simp [dispatchLoop, ha] at h

/-! ## Claim theorems -/

/-- C1 (code bug record): the claim states that on timeout the handler
invokes kill-by-name and then commits the job failed with the literal
message timeout exceeded, exactly once.  In the code the kill-by-name
command does run, but the job is never committed: cancel evaluates
del app[containers][container_name] against a containers key that no
statement ever populates, so a KeyError aborts the cancel task before
the completion event is set and the handler blocks forever; and even
with a populated containers entry, cancel sets a four element tuple
that fails the three name unpack in the handler with ValueError before
the TIMEOUT branch (the branch that would perform exactly the commit the
claim describes) can run.  This holds for both handlers. -/
theorem c1_timeout_path_never_commits (md : Metadata)
    (containersDict : Option (List String)) (jobId : String) :
    (runTimeoutScenario (handleComparippsonAfterEvent md) containersDict jobId).1
        = [killCommand jobId]
    ∧ (∀ commits,
        (runTimeoutScenario (handleComparippsonAfterEvent md) containersDict jobId).2
          ≠ some (.ok commits))
    ∧ (∀ commits,
        (runTimeoutScenario handleClusterblastAfterEvent containersDict jobId).2
          ≠ some (.ok commits)) := by
  have hcomp : handleComparippsonAfterEvent md (.cancel4 .TIMEOUT [] ["Runtime exceeded"] [])
      = .error (.valueError "too many values to unpack (expected 3)") := rfl
  have hcb : handleClusterblastAfterEvent (.cancel4 .TIMEOUT [] ["Runtime exceeded"] [])
      = .error (.valueError "too many values to unpack (expected 3)") := rfl
  refine ⟨rfl, ?_, ?_⟩
  · intro commits h
    cases containersDict with
    | none => simp [runTimeoutScenario, cancel] at h
    | some names =>
        by_cases hm : jobId ∈ names
        · simp [runTimeoutScenario, cancel, hm, hcomp] at h
        · simp [runTimeoutScenario, cancel, hm] at h
  · intro commits h
    cases containersDict with
    | none => simp [runTimeoutScenario, cancel] at h
    | some names =>
        by_cases hm : jobId ∈ names
        · simp [runTimeoutScenario, cancel, hm, hcb] at h
        · simp [runTimeoutScenario, cancel, hm] at h

/-- C2 (amended): the dispatcher boundary catches exactly the
ASDBJobsError family: any such error raised by handle_job, in particular
the InvalidJobType raised for an unknown jobtype, is converted into a
single failed commit carrying str(err), and the dispatcher survives.
Errors outside the family (the plain ValueError of a malformed result
line, the KeyError of a missing metadata entry) propagate and abort the
dispatcher with no commit. -/
theorem c2_dispatcher_catches_only_asdb_errors (md : Metadata) (job : Job)
    (ev : EventValue) :
    (∀ e, handle_job md job ev = .error e → e.isASDBJobsError = true →
        dispatchStep md job ev = ([("failed", .failedRes (.fromStr e.text))], none))
    ∧ (∀ e, handle_job md job ev = .error e → e.isASDBJobsError = false →
        dispatchStep md job ev = ([], some e))
    ∧ (job.jobtype ≠ "comparippson" → job.jobtype ≠ "clusterblast" →
        dispatchStep md job ev =
          ([("failed", .failedRes (.fromStr job.jobtype))], none)) := by
  refine ⟨?_, ?_, ?_⟩
  · intro e he ha
    unfold dispatchStep
    rw [he]
    simp [ha]
  · intro e he ha
    unfold dispatchStep
    rw [he]
    simp [ha]
  · intro h1 h2
    unfold dispatchStep handle_job
    simp [h1, h2, PyExc.isASDBJobsError, PyExc.text]

/-- C2 witness: a job with the unknown jobtype mystery is committed
failed with the jobtype as the message, and the dispatcher survives. -/
theorem c2_witness :
    dispatchStep []
      { id := "j1"
        jobtype := "mystery"
        status := "running"
        runner := "r"
        data := []
        results := .emptyRes
        version := 1 }
      (run_process 0 [] []) =
      ([("failed", .failedRes (.fromStr "mystery"))], none) := by
  have h := (c2_dispatcher_catches_only_asdb_errors []
    { id := "j1"
      jobtype := "mystery"
      status := "running"
      runner := "r"
      data := []
      results := .emptyRes
      version := 1 }
    (run_process 0 [] [])).2.2 (by decide) (by decide)
  simpa using h

/-- C2 counterexample: a comparippson job whose child succeeds but emits
a three column line makes BlastResult.from_line raise a plain
ValueError, which except ASDBJobsError does not catch: the dispatcher
aborts with the error after zero commits, contrary to the claim that a
malformed result line is caught and converted into a failed commit. -/
theorem c2_counterexample :
    dispatchStep []
      { id := "j1"
        jobtype := "comparippson"
        status := "running"
        runner := "r"
        data := []
        results := .emptyRes
        version := 1 }
      (run_process 0 ["only\tthree\tparts"] []) =
      ([], some (.valueError ("Unexpected line " ++ toString ["only", "three", "parts"]))) := by
  decide

/-- C5 (amended): on a supervisory tick the supervisor starts at most
one dispatcher task, exactly one when the running jobs counter is below
the target after the stop flag has been applied; the gap closes over
successive ticks, not within one. -/
theorem c5_manage_tick_spawns_at_most_one (stop : Bool) (running maxJobs : Int) :
    (manageTick stop running maxJobs).2 ≤ 1
    ∧ ((manageTick stop running maxJobs).2 = 1 ↔
        running < (manageTick stop running maxJobs).1)
    ∧ (stop = true → (manageTick stop running maxJobs).1 = 0) := by
  unfold manageTick
  cases stop <;> simp <;> split <;> simp_all

/-- C5 witness: with stop scheduled the target drops to zero. -/
theorem c5_witness : (manageTick true 3 5).1 = 0 :=
  (c5_manage_tick_spawns_at_most_one true 3 5).2.2 rfl

/-- C5 counterexample: with zero running dispatchers and a target of
five, one tick spawns one dispatcher, not the five the claim requires to
close the whole gap. -/
theorem c5_counterexample :
    (manageTick false 0 5).2 = 1 ∧ ((manageTick false 0 5).2 : Int) ≠ 5 - 0 := by
  decide

/-- C9 (amended): a dispatcher increments the running jobs counter
exactly once on entry (config.up) and decrements exactly once on the
deliberate want_less_jobs exit (config.down); an exit caused by a
propagating error performs no decrement, because dispatch has no finally
clause, so after such an exit the counter still counts the dead
dispatcher.  The counter never drops below its entry value, so it stays
nonnegative. -/
theorem c9_counter_accounting (c : Int) (events : List DispatchEvent) :
    ((dispatch c events).2 = .shrink → (dispatch c events).1 = c)
    ∧ (∀ e, (dispatch c events).2 = .aborted e → (dispatch c events).1 = c + 1)
    ∧ ((dispatch c events).2 = .running → (dispatch c events).1 = c + 1)
    ∧ (0 ≤ c → 0 ≤ (dispatch c events).1) := by
  have h := dispatchLoop_counter events (runningJobsUp c)
  have hup : runningJobsUp c = c + 1 := rfl
  refine ⟨?_, ?_, ?_, ?_⟩
  · intro hs
    show (dispatchLoop (runningJobsUp c) events).1 = c
    rw [h.1 hs, hup]
    omega
  · intro e he
    have hne : (dispatchLoop (runningJobsUp c) events).2 ≠ .shrink := fun hc =>
      by cases he.symm.trans hc
    show (dispatchLoop (runningJobsUp c) events).1 = c + 1
    rw [h.2 hne, hup]
  · intro hr
    have hne : (dispatchLoop (runningJobsUp c) events).2 ≠ .shrink := fun hc =>
      by cases hr.symm.trans hc
    show (dispatchLoop (runningJobsUp c) events).1 = c + 1
    rw [h.2 hne, hup]
  · intro hc
    show 0 ≤ (dispatchLoop (runningJobsUp c) events).1
    rcases eq_or_ne (dispatchLoop (runningJobsUp c) events).2 DispatchExit.shrink with hs | hs
    · rw [h.1 hs, hup]
      omega
    · rw [h.2 hs, hup]
      omega

/-- C9 witness: a dispatcher that enters and immediately leaves through
the shrink path restores the counter to its entry value. -/
theorem c9_witness : (dispatch 0 [DispatchEvent.wantLess]).1 = 0 :=
  (c9_counter_accounting 0 [DispatchEvent.wantLess]).1 rfl

/-- C9 counterexample: a dispatcher that enters with the counter at zero
and aborts through a propagating plain ValueError leaves the counter at
one although no dispatcher is live: the decrement the claim requires on
every exit did not happen. -/
theorem c9_counterexample :
    dispatch 0 [DispatchEvent.handlerRaised (.valueError "boom")] =
      (1, .aborted (.valueError "boom"))
    ∧ (1 : Int) ≠ 0 := by
  decide

/-- C10: update_from_dict assigns every RunConfig dataclass field whose
name appears as a key of the dict, the init=False internals
_config_file_hash, _db and _running_jobs included, and leaves absent
fields unchanged.  Since read_config feeds the parsed configuration file
straight into update_from_dict whenever the content hash changed, a
configuration file carrying a _running_jobs key overwrites the live
running jobs counter on reload. -/
theorem c10_update_from_dict_assigns_every_field (c : RunConfig)
    (d : String → Option PyVal) (n : String) (hn : n ∈ runConfigFieldNames) :
    (c.update_from_dict d).getField n =
      match d n with
      | some v => some v
      | none => c.getField n := by
  have hn' : n = "configfile" ∨ n = "cpus" ∨ n = "db_dir" ∨ n = "debug"
      ∨ n = "max_jobs" ∨ n = "name" ∨ n = "workdir" ∨ n = "host"
      ∨ n = "database" ∨ n = "password" ∨ n = "port" ∨ n = "user"
      ∨ n = "_config_file_hash" ∨ n = "_db" ∨ n = "_running_jobs" := by
    simpa [runConfigFieldNames] using hn
  rcases hn' with rfl | rfl | rfl | rfl | rfl | rfl | rfl | rfl | rfl | rfl | rfl | rfl | rfl | rfl | rfl <;>
    · cases hd : d _ <;>
        simp [RunConfig.update_from_dict, RunConfig.getField, hd]

/-- C10 witness: a reloaded dict carrying the key _running_jobs
overwrites the live running jobs counter, here from three to
forty-two. -/
theorem c10_witness :
    (RunConfig.update_from_dict
      { configfile := .vStr "asdb-jobs.toml"
        cpus := .vInt 2
        db_dir := .vStr "databases"
        debug := .vBool false
        max_jobs := .vInt 5
        name := .vStr "asdb-jobs"
        workdir := .vStr "workdir"
        host := .vStr "localhost"
        database := .vStr "antismash"
        password := .vStr "secret"
        port := .vInt 5432
        user := .vStr "postgres"
        _config_file_hash := .vStr ""
        _db := .vNone
        _running_jobs := .vInt 3 }
      (fun n => if n = "_running_jobs" then some (.vInt 42) else none)).getField
        "_running_jobs" = some (.vInt 42) := by
  have h := c10_update_from_dict_assigns_every_field
    { configfile := .vStr "asdb-jobs.toml"
      cpus := .vInt 2
      db_dir := .vStr "databases"
      debug := .vBool false
      max_jobs := .vInt 5
      name := .vStr "asdb-jobs"
      workdir := .vStr "workdir"
      host := .vStr "localhost"
      database := .vStr "antismash"
      password := .vStr "secret"
      port := .vInt 5432
      user := .vStr "postgres"
      _config_file_hash := .vStr ""
      _db := .vNone
      _running_jobs := .vInt 3 }
    (fun n => if n = "_running_jobs" then some (.vInt 42) else none)
    "_running_jobs" (by decide)
  simpa using h

/-- C4: Job.commit re-reads the row by primary key; when the row exists
and its stored version differs from the in-memory one it raises
JobConfict, producing no updated job and no updated table (the update
statement is never reached); when the versions match it increments the
local version by exactly one and issues the single update writing
status, runner, data, results and version, gated on both the id and the
previously fetched version. -/
theorem c4_commit_is_guarded_cas (j : Job) (db : DB) (row : Row)
    (hrow : get_job_by_id db j.id = .ok row) :
    (row.version ≠ j.version →
      Job.commit j db =
        .error (.jobConflict ("Job(" ++ j.id ++ ") changed in database")))
    ∧ (row.version = j.version →
      Job.commit j db = .ok ({ j with version := j.version + 1 },
        db.map (fun r =>
          if r.id = j.id ∧ r.version = j.version then
            { r with status := j.status
                     runner := j.runner
                     data := j.data
                     results := j.results
                     version := j.version + 1 }
          else r))) := by
  constructor
  · intro hne
    simp only [Job.commit, hrow]
    rw [if_pos hne]
  · intro heq
    simp only [Job.commit, hrow]
    rw [if_neg (by simp [heq])]
    simp only [heq]

def c4Job : Job :=
  { id := "j1"
    jobtype := "comparippson"
    status := "done"
    runner := "runner1"
    data := []
    results := .compHits []
    version := 0 }

def c4Row : Row :=
  { id := "j1"
    jobtype := "comparippson"
    status := "running"
    runner := "runner1"
    submitted_date := none
    data := []
    results := .emptyRes
    version := 0 }

/-- C4 witness: committing a finished job over its matching-version row
bumps the version to one and rewrites the mutable columns of exactly
that row. -/
theorem c4_witness :
    Job.commit c4Job [c4Row] =
      .ok ({ c4Job with version := 1 },
           [{ c4Row with
              status := "done"
              runner := "runner1"
              results := .compHits []
              version := 1 }]) := by
  have h := (c4_commit_is_guarded_cas c4Job [c4Row] c4Row rfl).2 rfl
  exact h.trans (by decide)

theorem parse_blast_length :
    ∀ (lines : List String) (rs : List BlastResult),
      parse_blast lines = .ok rs → rs.length = lines.length := by
  intro lines
  induction lines with
  | nil =>
      intro rs h
      simp only [parse_blast] at h
      cases h
      rfl
  | cons line rest ih =>
      intro rs h
      simp only [parse_blast] at h
      cases hr : BlastResult.from_line line with
      | error e => rw [hr, except_bind_error] at h; cases h
      | ok b =>
          rw [hr, except_bind_ok] at h
          cases hp : parse_blast rest with
          | error e => rw [hp, except_bind_error] at h; cases h
          | ok bs =>
              rw [hp, except_bind_ok] at h
              have h' : Except.ok (ε := PyExc) (b :: bs) = .ok rs := h
              cases h'
              simp [ih bs hp]

/-- C6 (spec-modelled ClusterBlastResult): when the clusterblast child
exits with return code zero and every stdout line parses, each line is
projected through ClusterBlastResult and the handler performs the single
commit with status done and a hits list holding one projection per input
line, in input order. -/
theorem c6_clusterblast_success_commits_hits (stdout stderr : List String)
    (rs : List BlastResult) (hp : parse_blast stdout = .ok rs) :
    handleClusterblastAfterEvent (run_process 0 stdout stderr) =
      .ok [("done", .cbHits (rs.map ClusterBlastResult.from_blast))]
    ∧ (rs.map ClusterBlastResult.from_blast).length = stdout.length := by
  constructor
  · have h0 : run_process 0 stdout stderr = .proc3 .SUCCESS stdout stderr := by
      simp [run_process]
    rw [h0]
    unfold handleClusterblastAfterEvent
    rw [show unpackEvent (.proc3 .SUCCESS stdout stderr)
          = .ok (.SUCCESS, stdout, stderr) from rfl]
    rw [except_bind_ok]
    simp only [reduceIte]
    rw [hp, except_bind_ok]
    rfl
  · simp [parse_blast_length stdout rs hp]

/-- C6 witness: one well-formed diamond output line yields a done commit
with the single projected hit. -/
theorem c6_witness :
    handleClusterblastAfterEvent
        (run_process 0 ["q1\tS1\t4\tMAGI\t1\t4\t5\tMAGX\t10\t13\t20"] []) =
      .ok [("done", .cbHits [{ q_acc := "q1"
                               s_acc := "S1"
                               identity := 80
                               q_seq := "MAGI"
                               q_start := 1
                               q_end := 4
                               q_len := 5
                               s_seq := "MAGX"
                               s_start := 10
                               s_end := 13
                               s_len := 20 }])] := by
  have h := (c6_clusterblast_success_commits_hits
    ["q1\tS1\t4\tMAGI\t1\t4\t5\tMAGX\t10\t13\t20"] []
    [{ q_acc := "q1"
       s_acc := "S1"
       identity := 80
       q_seq := "MAGI"
       q_start := 1
       q_end := 4
       q_len := 5
       s_seq := "MAGX"
       s_start := 10
       s_end := 13
       s_len := 20 }] (by decide)).1
  exact h.trans (by decide)

theorem find?_id_of_mem (db : DB) (row : Row)
    (hnd : (db.map Row.id).Nodup) (hm : row ∈ db) :
    db.find? (fun r => r.id == row.id) = some row := by
  induction db with
  | nil => cases hm
  | cons h t ih =>
      have hnd' : (t.map Row.id).Nodup := by
        have h2 := hnd
        rw [List.map_cons] at h2
        exact h2.of_cons
      by_cases hid : h.id = row.id
      · have heq : h = row :=
          List.inj_on_of_nodup_map hnd (List.mem_cons_self h t) hm hid
        subst heq
        simp [List.find?_cons]
      · have hm' : row ∈ t := by
          rcases List.mem_cons.mp hm with heq | hmem
          · exact absurd (congrArg Row.id heq).symm hid
          · exact hmem
        have hfalse : (h.id == row.id) = false := by
          simp [hid]
        simp [List.find?_cons, hfalse, ih hnd' hm']

/-- C3: JobQueue.get_next selects at most one row that is pending and
not locked by another transaction (the SKIP LOCKED part is modelled by
the set of row ids locked elsewhere).  When no such row exists it
returns none and leaves every row unchanged; otherwise the selected row
is pending and unlocked, the update stamps the runner name, sets the
status to running and increments the version by exactly one, gated on
the previously read version, every other row is untouched, and the
returned job is the freshly re-read updated row. -/
theorem c3_get_next_claims_one_pending_row (name : String) (locked : List String)
    (db : DB) (hnd : (db.map Row.id).Nodup) :
    (db.find? (pendingUnlocked locked) = none →
      JobQueue.get_next name locked db = .ok (none, db))
    ∧ (∀ row, db.find? (pendingUnlocked locked) = some row →
        row ∈ db ∧ row.status = "pending" ∧ row.id ∉ locked ∧
        JobQueue.get_next name locked db =
          .ok (some { id := row.id
                      jobtype := row.jobtype
                      status := "running"
                      runner := name
                      data := row.data
                      results := row.results
                      version := row.version + 1 },
               db.map (fun r =>
                 if r.id = row.id then
                   { r with runner := name
                            status := "running"
                            version := row.version + 1 }
                 else r))) := by
  constructor
  · intro h
    simp only [JobQueue.get_next, h]
  · intro row hfind
    have hmem : row ∈ db := List.mem_of_find?_eq_some hfind
    have hpred := List.find?_some hfind
    have hsplit : row.status = "pending" ∧ row.id ∉ locked := by
      simpa [pendingUnlocked] using hpred
    refine ⟨hmem, hsplit.1, hsplit.2, ?_⟩
    have hgate : db.map (claimRow name row)
        = db.map (fun r =>
            if r.id = row.id then
              { r with runner := name
                       status := "running"
                       version := row.version + 1 }
            else r) := by
      apply List.map_congr_left
      intro r hr
      by_cases hid : r.id = row.id
      · have heq : r = row := List.inj_on_of_nodup_map hnd hr hmem hid
        subst heq
        simp [claimRow]
      · simp [claimRow, hid]
    have hfind2 : (db.map (claimRow name row)).find? (fun r => r.id == row.id)
        = some (claimRow name row row) := by
      rw [List.find?_map]
      have hcomp : ((fun r : Row => r.id == row.id) ∘ claimRow name row)
          = (fun r : Row => r.id == row.id) := by
        funext r
        simp only [Function.comp]
        by_cases hc : r.id = row.id ∧ r.version = row.version
        · rw [claimRow, if_pos hc]
        · rw [claimRow, if_neg hc]
      rw [hcomp, find?_id_of_mem db row hnd hmem]
      rfl
    have hclaim : claimRow name row row =
        { row with runner := name
                   status := "running"
                   version := row.version + 1 } := by
      simp [claimRow]
    have hfromdb : Job.from_db (db.map (claimRow name row)) row.id
        = .ok { id := row.id
                jobtype := row.jobtype
                status := "running"
                runner := name
                data := row.data
                results := row.results
                version := row.version + 1 } := by
      simp only [Job.from_db, get_job_by_id, hfind2, hclaim]
      rfl
    simp only [JobQueue.get_next, hfind, hfromdb]
    rw [hgate]

def c3Row : Row :=
  { id := "j1"
    jobtype := "comparippson"
    status := "pending"
    runner := ""
    submitted_date := none
    data := [("name", "q1"), ("sequence", "MAGIC")]
    results := .emptyRes
    version := 0 }

/-- C3 witness: over a one-row table holding a pending job, get_next
claims it: status running, runner stamped, version bumped from zero to
one, and the returned job is the re-read updated row. -/
theorem c3_witness :
    JobQueue.get_next "runner1" [] [c3Row] =
      .ok (some { id := "j1"
                  jobtype := "comparippson"
                  status := "running"
                  runner := "runner1"
                  data := [("name", "q1"), ("sequence", "MAGIC")]
                  results := .emptyRes
                  version := 1 },
           [{ c3Row with
              runner := "runner1"
              status := "running"
              version := 1 }]) := by
  have h := ((c3_get_next_claims_one_pending_row "runner1" [] [c3Row]
    (by decide)).2 c3Row (by decide)).2.2.2
  exact h.trans (by decide)

theorem insertionSort_filter_stable (p : ComparippsonResult → Bool)
    (hp : ∀ a b, p a = true → p b = true → identityGe a b)
    (l : List ComparippsonResult) :
    (l.insertionSort identityGe).filter p = l.filter p := by
  have hpair : (l.filter p).Pairwise identityGe :=
    List.pairwise_of_forall_mem_list (fun a ha b hb =>
      hp a b (List.of_mem_filter ha) (List.of_mem_filter hb))
  have hsub : (l.filter p).Sublist (l.insertionSort identityGe) :=
    List.sublist_insertionSort hpair (List.filter_sublist l)
  have hsub2 : (l.filter p).Sublist ((l.insertionSort identityGe).filter p) := by
    have h2 := hsub.filter p
    have h3 : List.filter p (List.filter p l) = List.filter p l := by
      rw [List.filter_filter]
      simp
    rwa [h3] at h2
  have hperm : ((l.insertionSort identityGe).filter p).Perm (l.filter p) :=
    (List.perm_insertionSort identityGe l).filter p
  exact (hsub2.eq_of_length hperm.length_eq.symm).symm

/-- C8: on a successful comparippson run the committed hits are the
enriched records sorted by identity in non-increasing order; the sorted
list is a permutation of the enriched list and, for every identity
value, keeps the equal-identity hits in their input order (stability);
on a successful clusterblast run the committed hits are the parsed lines
projected in input order, unsorted. -/
theorem c8_hits_ordering (md : Metadata) (stdout stderr : List String)
    (rs : List BlastResult) (hits : List ComparippsonResult)
    (hp : parse_blast stdout = .ok rs)
    (he : enrichAll md rs = .ok hits) :
    handleComparippsonAfterEvent md (run_process 0 stdout stderr) =
      .ok [("done", .compHits (sortHitsDesc hits))]
    ∧ (sortHitsDesc hits).Pairwise identityGe
    ∧ (sortHitsDesc hits).Perm hits
    ∧ (∀ v : Int, (sortHitsDesc hits).filter (fun e => e.identity == v)
        = hits.filter (fun e => e.identity == v))
    ∧ handleClusterblastAfterEvent (run_process 0 stdout stderr) =
        .ok [("done", .cbHits (rs.map ClusterBlastResult.from_blast))] := by
  have h0 : run_process 0 stdout stderr = .proc3 .SUCCESS stdout stderr := by
    simp [run_process]
  refine ⟨?_, ?_, ?_, ?_, ?_⟩
  · rw [h0]
    unfold handleComparippsonAfterEvent
    rw [show unpackEvent (.proc3 .SUCCESS stdout stderr)
          = .ok (.SUCCESS, stdout, stderr) from rfl]
    rw [except_bind_ok]
    simp only [reduceIte]
    rw [hp, except_bind_ok, he, except_bind_ok]
    rfl
  · exact List.sorted_insertionSort identityGe hits
  · exact List.perm_insertionSort identityGe hits
  · intro v
    refine insertionSort_filter_stable (fun e => e.identity == v) ?_ hits
    intro a b ha hb
    have ha' : a.identity = v := by simpa using ha
    have hb' : b.identity = v := by simpa using hb
    show b.identity ≤ a.identity
    rw [ha', hb']
  · rw [h0]
    unfold handleClusterblastAfterEvent
    rw [show unpackEvent (.proc3 .SUCCESS stdout stderr)
          = .ok (.SUCCESS, stdout, stderr) from rfl]
    rw [except_bind_ok]
    simp only [reduceIte]
    rw [hp, except_bind_ok]
    rfl

def c8Md : Metadata :=
  [("ENT1", { locus := "L1", type := "T1", accession := "A1", start := "1", stop := "99" }),
   ("ENT2", { locus := "L2", type := "T2", accession := "A2", start := "2", stop := "98" })]

def c8LineLow : String := "q1\tENT1|x\t4\tMAGI\t1\t4\t5\tMAGX\t10\t13\t20"

def c8LineHigh : String := "q2\tENT2|y\t5\tMAGIC\t1\t5\t5\tMAGIC\t1\t5\t5"

def c8BlastLow : BlastResult :=
  { q_acc := "q1"
    s_acc := "ENT1|x"
    identity := 80
    q_seq := "MAGI"
    q_start := 1
    q_end := 4
    q_len := 5
    s_seq := "MAGX"
    s_start := 10
    s_end := 13
    s_len := 20 }

def c8BlastHigh : BlastResult :=
  { q_acc := "q2"
    s_acc := "ENT2|y"
    identity := 100
    q_seq := "MAGIC"
    q_start := 1
    q_end := 5
    q_len := 5
    s_seq := "MAGIC"
    s_start := 1
    s_end := 5
    s_len := 5 }

def c8HitLow : ComparippsonResult :=
  { q_acc := "q1"
    s_locus := "L1"
    s_type := "T1"
    s_acc := "A1"
    s_rec_start := "1"
    s_rec_end := "99"
    identity := 80
    q_seq := "MAGI"
    q_start := 1
    q_end := 4
    q_len := 5
    s_seq := "MAGX"
    s_start := 10
    s_end := 13
    s_len := 20 }

def c8HitHigh : ComparippsonResult :=
  { q_acc := "q2"
    s_locus := "L2"
    s_type := "T2"
    s_acc := "A2"
    s_rec_start := "2"
    s_rec_end := "98"
    identity := 100
    q_seq := "MAGIC"
    q_start := 1
    q_end := 5
    q_len := 5
    s_seq := "MAGIC"
    s_start := 1
    s_end := 5
    s_len := 5 }

/-- C8 witness: two lines arriving with identities 80 then 100 are
committed in the order 100 then 80. -/
theorem c8_witness :
    handleComparippsonAfterEvent c8Md (run_process 0 [c8LineLow, c8LineHigh] []) =
      .ok [("done", .compHits [c8HitHigh, c8HitLow])] := by
  have h := (c8_hits_ordering c8Md [c8LineLow, c8LineHigh] []
    [c8BlastLow, c8BlastHigh] [c8HitLow, c8HitHigh] (by decide) (by decide)).1
  exact h.trans (by decide)

theorem except_error_ne_ok {ε α : Type} (e : ε) (x : α) :
    (Except.error e : Except ε α) ≠ .ok x := fun h => nomatch h

theorem roundHalfEvenPos_eq_pythonRound (n d : ℤ) (hd : 0 < d) :
    roundHalfEvenPos n d = pythonRound ((n : ℚ) / (d : ℚ)) := by
  have hd0 : d ≠ 0 := ne_of_gt hd
  have hdq : (0 : ℚ) < (d : ℚ) := by exact_mod_cast hd
  have hadd : (d : ℚ) * ((n / d : ℤ) : ℚ) + ((n % d : ℤ) : ℚ) = (n : ℚ) := by
    exact_mod_cast congrArg (fun z : ℤ => (z : ℚ)) (Int.ediv_add_emod n d)
  have hr0 : (0 : ℚ) ≤ ((n % d : ℤ) : ℚ) := by
    exact_mod_cast Int.emod_nonneg n hd0
  have hrd : ((n % d : ℤ) : ℚ) < (d : ℚ) := by
    exact_mod_cast Int.emod_lt_of_pos n hd
  have hq : (n : ℚ) / (d : ℚ) = ((n / d : ℤ) : ℚ) + ((n % d : ℤ) : ℚ) / (d : ℚ) := by
    rw [← hadd, add_div, mul_div_cancel_left₀ _ (ne_of_gt hdq)]
  have hfloor : ⌊(n : ℚ) / (d : ℚ)⌋ = n / d := by
    rw [Int.floor_eq_iff]
    constructor
    · rw [hq]
      have : (0 : ℚ) ≤ ((n % d : ℤ) : ℚ) / (d : ℚ) := div_nonneg hr0 hdq.le
      linarith
    · rw [hq]
      have : ((n % d : ℤ) : ℚ) / (d : ℚ) < 1 := by
        rw [div_lt_one hdq]
        exact hrd
      linarith
  have hfrac : (n : ℚ) / (d : ℚ) - ((n / d : ℤ) : ℚ) = ((n % d : ℤ) : ℚ) / (d : ℚ) := by
    rw [hq]
    ring
  have hlt : ((n : ℚ) / (d : ℚ) - ((n / d : ℤ) : ℚ) < 1 / 2) ↔ (2 * (n % d) < d) := by
    rw [hfrac, div_lt_iff₀ hdq]
    constructor
    · intro h
      have h2 : ((2 * (n % d) : ℤ) : ℚ) < (d : ℚ) := by push_cast; linarith
      exact_mod_cast h2
    · intro h
      have h2 : ((2 * (n % d) : ℤ) : ℚ) < (d : ℚ) := by exact_mod_cast h
      push_cast at h2
      linarith
  have hgt : (1 / 2 < (n : ℚ) / (d : ℚ) - ((n / d : ℤ) : ℚ)) ↔ (d < 2 * (n % d)) := by
    rw [hfrac, lt_div_iff₀ hdq]
    constructor
    · intro h
      have h2 : ((d : ℤ) : ℚ) < ((2 * (n % d) : ℤ) : ℚ) := by push_cast; linarith
      exact_mod_cast h2
    · intro h
      have h2 : ((d : ℤ) : ℚ) < ((2 * (n % d) : ℤ) : ℚ) := by exact_mod_cast h
      push_cast at h2
      linarith
  unfold pythonRound roundHalfEvenPos
  rw [hfloor]
  simp only [hlt, hgt]

theorem roundHalfEven_eq_pythonRound (n d : ℤ) (hd : d ≠ 0) :
    roundHalfEven n d = pythonRound ((n : ℚ) / (d : ℚ)) := by
  unfold roundHalfEven
  by_cases hneg : d < 0
  · rw [if_pos hneg]
    rw [roundHalfEvenPos_eq_pythonRound (-n) (-d) (by omega)]
    congr 1
    push_cast
    rw [neg_div_neg_eq]
  · rw [if_neg hneg]
    exact roundHalfEvenPos_eq_pythonRound n d (by omega)

theorem pythonRound_nonneg (q : ℚ) (h : 0 ≤ q) : 0 ≤ pythonRound q := by
  have hf : 0 ≤ ⌊q⌋ := Int.floor_nonneg.mpr h
  unfold pythonRound
  split_ifs <;> omega

theorem pythonRound_le_hundred (q : ℚ) (h : q ≤ 100) : pythonRound q ≤ 100 := by
  have hf : ⌊q⌋ ≤ 100 := by
    have h2 := Int.floor_le_floor (α := ℚ) h
    simpa using h2
  have hfl : (⌊q⌋ : ℚ) ≤ q := Int.floor_le q
  unfold pythonRound
  split_ifs with h1 h2 h3
  · omega
  · have hlt : (⌊q⌋ : ℚ) < 100 := by linarith
    have : ⌊q⌋ < 100 := by exact_mod_cast hlt
    omega
  · omega
  · have hge : 1 / 2 ≤ q - (⌊q⌋ : ℚ) := not_lt.mp h1
    have hlt : (⌊q⌋ : ℚ) < 100 := by linarith
    have : ⌊q⌋ < 100 := by exact_mod_cast hlt
    omega

theorem from_line_ok_inversion (line : String) (r : BlastResult)
    (hok : BlastResult.from_line line = .ok r) :
    ∃ nident q_len : ℤ,
      pyInt ((pySplitOnChar '\t' (pyStrip line)).getD 2 "") = .ok nident
      ∧ pyInt ((pySplitOnChar '\t' (pyStrip line)).getD 6 "") = .ok q_len
      ∧ r.q_len = q_len ∧ q_len ≠ 0
      ∧ r.identity = roundHalfEven (nident * 100) q_len := by
  simp only [BlastResult.from_line] at hok
  by_cases hlen : (pySplitOnChar '\t' (pyStrip line)).length ≠ blastFieldCount
  · rw [if_pos hlen] at hok
    exact absurd hok (except_error_ne_ok _ _)
  · rw [if_neg hlen] at hok
    cases h2 : pyInt ((pySplitOnChar '\t' (pyStrip line)).getD 2 "") with
    | error e => simp only [h2, except_bind_error] at hok
                 exact absurd hok (except_error_ne_ok _ _)
    | ok nident =>
    simp only [h2, except_bind_ok] at hok
    cases h4 : pyInt ((pySplitOnChar '\t' (pyStrip line)).getD 4 "") with
    | error e => simp only [h4, except_bind_error] at hok
                 exact absurd hok (except_error_ne_ok _ _)
    | ok q_start =>
    simp only [h4, except_bind_ok] at hok
    cases h5 : pyInt ((pySplitOnChar '\t' (pyStrip line)).getD 5 "") with
    | error e => simp only [h5, except_bind_error] at hok
                 exact absurd hok (except_error_ne_ok _ _)
    | ok q_end =>
    simp only [h5, except_bind_ok] at hok
    cases h6 : pyInt ((pySplitOnChar '\t' (pyStrip line)).getD 6 "") with
    | error e => simp only [h6, except_bind_error] at hok
                 exact absurd hok (except_error_ne_ok _ _)
    | ok q_len =>
    simp only [h6, except_bind_ok] at hok
    by_cases hz : q_len = 0
    · rw [if_pos hz] at hok
      exact absurd hok (except_error_ne_ok _ _)
    · rw [if_neg hz] at hok
      cases h8 : pyInt ((pySplitOnChar '\t' (pyStrip line)).getD 8 "") with
      | error e => simp only [h8, except_bind_error] at hok
                   exact absurd hok (except_error_ne_ok _ _)
      | ok s_start =>
      simp only [h8, except_bind_ok] at hok
      cases h9 : pyInt ((pySplitOnChar '\t' (pyStrip line)).getD 9 "") with
      | error e => simp only [h9, except_bind_error] at hok
                   exact absurd hok (except_error_ne_ok _ _)
      | ok s_end =>
      simp only [h9, except_bind_ok] at hok
      cases h10 : pyInt ((pySplitOnChar '\t' (pyStrip line)).getD 10 "") with
      | error e => simp only [h10, except_bind_error] at hok
                   exact absurd hok (except_error_ne_ok _ _)
      | ok s_len =>
      simp only [h10, except_bind_ok] at hok
      have hrec := Except.ok.inj hok
      refine ⟨nident, q_len, rfl, rfl, ?_, hz, ?_⟩
      · rw [← hrec]
      · rw [← hrec]

/-- C7 (amended): every line the parser accepts has a nonzero query
length (a q_len of zero raises ZeroDivisionError, so no record is
returned), and its stored identity equals the Python rounding, half to
even, of nident * 100 / q_len computed exactly over the rationals; the
bounds 0 <= identity <= 100 claimed by the spec hold under the extra
assumption 0 <= nident <= q_len, which the parser does not check. -/
theorem c7_identity_formula_and_bounds (line : String) (r : BlastResult)
    (hok : BlastResult.from_line line = .ok r) :
    r.q_len ≠ 0
    ∧ ∃ nident : ℤ,
        pyInt ((pySplitOnChar '\t' (pyStrip line)).getD 2 "") = .ok nident
        ∧ r.identity = pythonRound (((nident : ℚ) * 100) / (r.q_len : ℚ))
        ∧ (0 ≤ nident → nident ≤ r.q_len → 0 ≤ r.identity ∧ r.identity ≤ 100) := by
  obtain ⟨nident, q_len, h2, h6, hql, hz, hid⟩ := from_line_ok_inversion line r hok
  subst hql
  have hidq : r.identity = pythonRound (((nident : ℚ) * 100) / (r.q_len : ℚ)) := by
    rw [hid, roundHalfEven_eq_pythonRound _ _ hz]
    congr 1
    push_cast
    ring
  refine ⟨hz, nident, h2, hidq, ?_⟩
  intro hn0 hnle
  have hqlpos : 0 < r.q_len := by omega
  have hqlq : (0 : ℚ) < (r.q_len : ℚ) := by exact_mod_cast hqlpos
  have hnq : (0 : ℚ) ≤ (nident : ℚ) := by exact_mod_cast hn0
  have hq0 : (0 : ℚ) ≤ ((nident : ℚ) * 100) / (r.q_len : ℚ) := by
    apply div_nonneg _ hqlq.le
    linarith
  have hq100 : ((nident : ℚ) * 100) / (r.q_len : ℚ) ≤ 100 := by
    rw [div_le_iff₀ hqlq]
    have h1 : (nident : ℚ) ≤ (r.q_len : ℚ) := by exact_mod_cast hnle
    linarith
  rw [hidq]
  exact ⟨pythonRound_nonneg _ hq0, pythonRound_le_hundred _ hq100⟩

def c7Rec : BlastResult :=
  { q_acc := "q1"
    s_acc := "ENT1|x"
    identity := 80
    q_seq := "MAGI"
    q_start := 1
    q_end := 4
    q_len := 5
    s_seq := "MAGX"
    s_start := 10
    s_end := 13
    s_len := 20 }

/-- C7 witness: the accepted line with nident 4 and q_len 5 has a
nonzero q_len and an identity of 80, inside the claimed bounds. -/
theorem c7_witness :
    c7Rec.q_len ≠ 0 ∧ 0 ≤ c7Rec.identity ∧ c7Rec.identity ≤ 100 := by
  obtain ⟨hz, nident, h2, hidq, hb⟩ := c7_identity_formula_and_bounds
    "q1\tENT1|x\t4\tMAGI\t1\t4\t5\tMAGX\t10\t13\t20" c7Rec (by decide)
  have hn : nident = 4 := by
    have h4 : pyInt ((pySplitOnChar '\t'
        (pyStrip "q1\tENT1|x\t4\tMAGI\t1\t4\t5\tMAGX\t10\t13\t20")).getD 2 "")
        = .ok 4 := by decide
    exact Except.ok.inj (h2.symm.trans h4)
  subst hn
  exact ⟨hz, hb (by decide) (by decide)⟩

/-- C7 counterexample: the parser accepts a line with nident 200 and
q_len 5 and stores identity 4000, so the claimed bound identity <= 100
fails for an accepted line. -/
theorem c7_counterexample :
    BlastResult.from_line "q\ts\t200\tQSEQ\t1\t4\t5\tSSEQ\t1\t4\t5" =
      .ok { q_acc := "q"
            s_acc := "s"
            identity := 4000
            q_seq := "QSEQ"
            q_start := 1
            q_end := 4
            q_len := 5
            s_seq := "SSEQ"
            s_start := 1
            s_end := 4
            s_len := 5 }
    ∧ ¬((4000 : ℤ) ≤ 100) := by
  decide

end AsdbJobs
